import Mathlib

/-!
Shallow embedding of the connector-contacts repository: the native contacts
layer (`ensureAccess`, `searchContacts`, `getContactDetails`), the
`update_contact` tool handler, and the AppleScript layer (`escapeAS`,
`runAppleScript`, `listGroups`, `getGroupMembers`).

The structured native backend is modelled as an explicit record of responses
(`Backend`), and every operation additionally returns the list of backend
calls it performed, so that properties of the form "the fallback scan never
runs" are statable.
-/

namespace ConnectorContacts

/-- `listStartsWith needle hay` models JS `hay.startsWith(needle)` on char lists. -/
def listStartsWith : List Char → List Char → Bool
  | [], _ => true
  | _ :: _, [] => false
  | a :: as, b :: bs => a == b && listStartsWith as bs

/-- `listContainsSub needle hay` models JS `hay.includes(needle)` on char lists. -/
def listContainsSub (needle : List Char) : List Char → Bool
  | [] => needle.isEmpty
  | h :: t => listStartsWith needle (h :: t) || listContainsSub needle t

/-- JS `s.includes(sub)`. -/
def strIncludes (s sub : String) : Bool := listContainsSub sub.toList s.toList

/-- JS `s.toLowerCase()`: per-character lowercasing. -/
def strToLower (s : String) : String := ⟨s.toList.map Char.toLower⟩

/-- Whitespace trimming on char lists (helper for `strTrim`). -/
def trimList (l : List Char) : List Char :=
  ((l.dropWhile Char.isWhitespace).reverse.dropWhile Char.isWhitespace).reverse

/-- JS `s.trim()`: strip leading and trailing whitespace. -/
def strTrim (s : String) : String := ⟨trimList s.toList⟩

/-- JS `s.startsWith(p)`. -/
def strStartsWith (s p : String) : Bool := listStartsWith p.toList s.toList

/-- Attach a char to the head segment of a split result (helper for `splitCS`). -/
def consHead (a : Char) : List (List Char) → List (List Char)
  | [] => [[a]]
  | s :: rest => (a :: s) :: rest

/-- Left-to-right split on the two-char separator `", "`, modelling
JS `s.split(", ")` on char lists. -/
def splitCS : List Char → List (List Char)
  | [] => [[]]
  | [h] => [[h]]
  | a :: b :: t =>
    if a = ',' ∧ b = ' ' then [] :: splitCS t
    else consHead a (splitCS (b :: t))

/-- JS `s.split(", ")`. -/
def jsSplitCommaSpace (s : String) : List String :=
  (splitCS s.toList).map fun l => ⟨l⟩

/-- Basic contact record, as in `src/types.ts` (`ContactBasic`). -/
structure ContactBasic where
  identifier : String
  firstName : String
  lastName : String
  nickname : String
  birthday : String
  phoneNumbers : List String
  emailAddresses : List String
  postalAddresses : List String
deriving DecidableEq

/-- Full contact record with extra properties, as in `src/types.ts` (`ContactFull`). -/
structure ContactFull extends ContactBasic where
  jobTitle : String
  departmentName : String
  organizationName : String
  middleName : String
  note : String
  urlAddresses : List String
  socialProfiles : List (String × String)
  instantMessageAddresses : List (String × String)
deriving DecidableEq

/-- The optional fields of the `update_contact` tool input (zod schema in
`index.ts`): `none` models an omitted field (JS `undefined`). -/
structure UpdateFields where
  firstName : Option String
  lastName : Option String
  nickname : Option String
  middleName : Option String
  jobTitle : Option String
  departmentName : Option String
  organizationName : Option String
  birthday : Option String
  phoneNumbers : Option (List String)
  emailAddresses : Option (List String)
  urlAddresses : Option (List String)
deriving DecidableEq

/-- The object literal `updatePayload` assembled by the `update_contact`
handler and passed to `native.updateContact`.  The handler never awaits the
promise bound to `current`, so every `current.X` property read yields
`undefined`; each field of the runtime object is therefore exactly the
caller's optional value (`fields.X ?? undefined`), `none` when omitted. -/
structure UpdatePayload where
  identifier : String
  firstName : Option String
  lastName : Option String
  nickname : Option String
  middleName : Option String
  jobTitle : Option String
  departmentName : Option String
  organizationName : Option String
  birthday : Option String
  phoneNumbers : Option (List String)
  emailAddresses : Option (List String)
  urlAddresses : Option (List String)
deriving DecidableEq

/-- One observable call to the node-mac-contacts backend. -/
inductive BackendCall where
  | getContactsByNameBasic (q : String)
  | getAllContactsBasic
  | getContactsByNameFull (q : String)
  | getAllContactsFull
  | updateContact (p : UpdatePayload)
deriving DecidableEq

/-- The node-mac-contacts backend, modelled as a record of its responses.
`loadError` models a failure of the lazy native-module load;
`getContactsByNameFull` / `getAllContactsFull` are the calls made with the
`ALL_EXTRA_PROPERTIES` projection. -/
structure Backend where
  loadError : Option String
  authStatus : String
  requestAccessResult : String
  getAllContactsBasic : List ContactBasic
  getAllContactsFull : List ContactFull
  getContactsByNameBasic : String → List ContactBasic
  getContactsByNameFull : String → List ContactFull
  updateResult : UpdatePayload → Bool

/-- `ensureAccess` from `contacts-native.ts`.  Returns the outcome
(`ok` or the thrown error message) together with the number of times the
access-request prompt (`requestAccess`) was invoked. -/
def ensureAccess (b : Backend) : Except String Unit × Nat :=
  match b.loadError with
  | some m => (.error m, 0)
  | none =>
    let status := b.authStatus
    if status = "Authorized" ∨ status = "Limited" then (.ok (), 0)
    else if status = "Not Determined" then
      let result := b.requestAccessResult
      if result = "Authorized" ∨ result = "Limited" then (.ok (), 1)
      else
        (.error ("Contacts access was not granted (status after prompt: " ++ result ++ "). " ++
          "Please enable Contacts access in System Settings > Privacy & Security > Contacts."), 1)
    else
      (.error ("Contacts access is currently \"" ++ status ++ "\". " ++
        "Please enable Contacts access in System Settings > Privacy & Security > Contacts. " ++
        "You may need to run: tccutil reset AddressBook <bundle-id>"), 0)

/-- The fallback filter predicate of `searchContacts` (the body of the
`.filter((c) => ...)` callback), with `q` the lowercased trimmed query. -/
def fallbackMatch (q : String) (c : ContactBasic) : Bool :=
  let first := strToLower c.firstName
  let last := strToLower c.lastName
  let full := strTrim (first ++ " " ++ last)
  strIncludes full q ||
  strIncludes first q ||
  strIncludes last q ||
  strIncludes (strToLower c.nickname) q ||
  c.emailAddresses.any (fun e => strIncludes (strToLower e) q) ||
  c.phoneNumbers.any (fun p => strIncludes p q)

/-- `searchContacts` from `contacts-native.ts`: native name search first,
manual scan fallback when it returns nothing and the trimmed lowercased
query is non-empty. -/
def searchContacts (b : Backend) (query : String) :
    Except String (List ContactBasic × List BackendCall) :=
  match (ensureAccess b).fst with
  | .error m => .error m
  | .ok _ =>
    let results := b.getContactsByNameBasic query
    if results.length > 0 then
      .ok (results, [.getContactsByNameBasic query])
    else
      let q := strTrim (strToLower query)
      if q = "" then
        .ok (results, [.getContactsByNameBasic query])
      else
        .ok (b.getAllContactsBasic.filter (fallbackMatch q),
          [.getContactsByNameBasic query, .getAllContactsBasic])

/-- `getContactDetails` from `contacts-native.ts`: targeted name search with
the extra-properties projection, then a full scan fallback; `none` is the
normal not-found result. -/
def getContactDetails (b : Backend) (identifier : String) :
    Except String (Option ContactFull × List BackendCall) :=
  match (ensureAccess b).fst with
  | .error m => .error m
  | .ok _ =>
    let basicAll := b.getAllContactsBasic
    match basicAll.find? (fun c => c.identifier == identifier) with
    | some basicMatch =>
      let searchName :=
        if basicMatch.firstName = "" then basicMatch.lastName else basicMatch.firstName
      if searchName = "" then
        (.ok (b.getAllContactsFull.find? (fun c => c.identifier == identifier),
          [.getAllContactsBasic, .getAllContactsFull]))
      else
        let detailed := b.getContactsByNameFull searchName
        match detailed.find? (fun c => c.identifier == identifier) with
        | some m =>
          .ok (some m, [.getAllContactsBasic, .getContactsByNameFull searchName])
        | none =>
          .ok (b.getAllContactsFull.find? (fun c => c.identifier == identifier),
            [.getAllContactsBasic, .getContactsByNameFull searchName, .getAllContactsFull])
    | none =>
      .ok (b.getAllContactsFull.find? (fun c => c.identifier == identifier),
        [.getAllContactsBasic, .getAllContactsFull])

/-- The serialized outcomes of the `update_contact` tool handler: the
not-found payload, the success/failure payload, or the caught-error payload.
The handler's unawaited calls make only `resultPayload true` reachable; the
other constructors mirror its dead branches. -/
inductive UpdateToolOutcome where
  | notFoundPayload (identifier : String)
  | resultPayload (success : Bool)
  | errorPayload (message : String)
deriving DecidableEq

/-- The `update_contact` tool handler from `index.ts`, with the actual
JavaScript semantics of its unawaited async calls.
`const current = native.getContactDetails(identifier)` binds a pending
promise: the promise body still runs (so its backend calls happen), but
`current` is always truthy, so `if (!current)` never takes the not-found
branch, and every `current.X` read yields `undefined`, so the payload holds
the caller's optional fields only.  `native.updateContact` is then always
invoked; its backend update call happens when the access gate passes.  Its
result is likewise an unawaited (truthy) promise, so the handler always
reports success.  The backend calls of the two unawaited promises are
serialized here as the detail-fetch calls followed by the update call; the
theorems below rely only on membership in the trace, not on this order. -/
def update_contact (b : Backend) (identifier : String) (fields : UpdateFields) :
    UpdateToolOutcome × List BackendCall :=
  let detailCalls :=
    match getContactDetails b identifier with
    | .error _ => []
    | .ok (_, calls) => calls
  let payload : UpdatePayload :=
    { identifier := identifier
      firstName := fields.firstName
      lastName := fields.lastName
      nickname := fields.nickname
      middleName := fields.middleName
      jobTitle := fields.jobTitle
      departmentName := fields.departmentName
      organizationName := fields.organizationName
      birthday := fields.birthday
      phoneNumbers := fields.phoneNumbers
      emailAddresses := fields.emailAddresses
      urlAddresses := fields.urlAddresses }
  let updateCalls :=
    match (ensureAccess b).fst with
    | .error _ => []
    | .ok _ => [BackendCall.updateContact payload]
  (.resultPayload true, detailCalls ++ updateCalls)

/-- Outcome of the out-of-process `osascript` execution (`execFileSync`):
success with captured stdout, a thrown `Error` (with an optional `stderr`
property), or a thrown non-`Error` value (its stringification). -/
inductive ExecOutcome where
  | success (stdout : String)
  | errorThrown (stderr : Option String) (message : String)
  | nonErrorThrown (stringified : String)
deriving DecidableEq

/-- `runAppleScript` from `contacts-applescript.ts`: trimmed stdout on
success; on failure an error message `stderr || message` (or the
stringified value), prefixed with "AppleScript error: ". -/
def runAppleScript : ExecOutcome → Except String String
  | .success out => .ok (strTrim out)
  | .errorThrown stderr message =>
    let diag :=
      match stderr with
      | some s => if s = "" then message else s
      | none => message
    .error ("AppleScript error: " ++ diag)
  | .nonErrorThrown s => .error ("AppleScript error: " ++ s)

/-- The expansion of one input char under the `escapeAS` replacement chain. -/
def escChar (c : Char) : List Char :=
  if c = '\\' then ['\\', '\\']
  else if c = '"' then ['\\', '"']
  else if c = '\r' then []
  else if c = '\n' then []
  else [c]

/-- One global single-char regex replacement, `s.replace(/c/g, r)`. -/
def replCharList (c : Char) (r : List Char) : List Char → List Char
  | [] => []
  | h :: t => (if h = c then r else [h]) ++ replCharList c r t

/-- `escapeAS` on char lists: the four chained `.replace` calls in source order
(backslash, then double quote, then carriage return, then newline). -/
def escapeASList (l : List Char) : List Char :=
  replCharList '\n' []
    (replCharList '\r' []
      (replCharList '"' ['\\', '"']
        (replCharList '\\' ['\\', '\\'] l)))

/-- `escapeAS` from `contacts-applescript.ts`. -/
def escapeAS (s : String) : String := ⟨escapeASList s.toList⟩

/-- `listGroups` from `contacts-applescript.ts`: run the script, empty output
gives the empty list, otherwise split on `", "`. -/
def listGroups (o : ExecOutcome) : Except String (List String) :=
  match runAppleScript o with
  | .error m => .error m
  | .ok result =>
    if result = "" then .ok []
    else .ok (jsSplitCommaSpace result)

/-- `getGroupMembers` from `contacts-applescript.ts`: sentinel output raises
the not-found error naming the group, empty output gives the empty list,
otherwise split on `", "`. -/
def getGroupMembers (o : ExecOutcome) (groupName : String) :
    Except String (List String) :=
  match runAppleScript o with
  | .error m => .error m
  | .ok result =>
    if result = "GROUP_NOT_FOUND" then
      .error ("Group \"" ++ groupName ++ "\" not found")
    else if result = "" then .ok []
    else .ok (jsSplitCommaSpace result)

/-! ### Concrete fixtures used by the witnesses -/

/-- A backend fixture whose authorization status is Denied. -/
def bDenied : Backend :=
  { loadError := none
    authStatus := "Denied"
    requestAccessResult := "Denied"
    getAllContactsBasic := []
    getAllContactsFull := []
    getContactsByNameBasic := fun _ => []
    getContactsByNameFull := fun _ => []
    updateResult := fun _ => false }

/-- An address-book contact fixture. -/
def aliceBasic : ContactBasic :=
  { identifier := "alice-1"
    firstName := "Alice"
    lastName := "Smith"
    nickname := "Al"
    birthday := "1990-01-02"
    phoneNumbers := ["+14155551234"]
    emailAddresses := ["alice@example.com"]
    postalAddresses := [] }

/-- A backend whose native name search finds `aliceBasic`. -/
def bPrimary : Backend :=
  { loadError := none
    authStatus := "Authorized"
    requestAccessResult := ""
    getAllContactsBasic := [aliceBasic]
    getAllContactsFull := []
    getContactsByNameBasic := fun _ => [aliceBasic]
    getContactsByNameFull := fun _ => []
    updateResult := fun _ => false }

/-- A backend whose native name search always misses. -/
def bFallback : Backend :=
  { loadError := none
    authStatus := "Authorized"
    requestAccessResult := ""
    getAllContactsBasic := [aliceBasic]
    getAllContactsFull := []
    getContactsByNameBasic := fun _ => []
    getContactsByNameFull := fun _ => []
    updateResult := fun _ => false }

/-- An empty authorized backend. -/
def bEmptyAuth : Backend :=
  { loadError := none
    authStatus := "Authorized"
    requestAccessResult := ""
    getAllContactsBasic := []
    getAllContactsFull := []
    getContactsByNameBasic := fun _ => []
    getContactsByNameFull := fun _ => []
    updateResult := fun _ => false }

/-- A contact with both name fields empty. -/
def noNameBasic : ContactBasic :=
  { identifier := "n1"
    firstName := ""
    lastName := ""
    nickname := "Nick"
    birthday := ""
    phoneNumbers := []
    emailAddresses := []
    postalAddresses := [] }

/-- The full record for `noNameBasic`. -/
def noNameFull : ContactFull :=
  { toContactBasic := noNameBasic
    jobTitle := ""
    departmentName := ""
    organizationName := ""
    middleName := ""
    note := ""
    urlAddresses := []
    socialProfiles := []
    instantMessageAddresses := [] }

/-- A backend holding only the nameless contact. -/
def bNoName : Backend :=
  { loadError := none
    authStatus := "Authorized"
    requestAccessResult := ""
    getAllContactsBasic := [noNameBasic]
    getAllContactsFull := [noNameFull]
    getContactsByNameBasic := fun _ => []
    getContactsByNameFull := fun _ => []
    updateResult := fun _ => false }

/-- A full contact record for `aliceBasic`. -/
def aliceFull : ContactFull :=
  { toContactBasic := aliceBasic
    jobTitle := "Engineer"
    departmentName := "R&D"
    organizationName := "Acme"
    middleName := "Q"
    note := "a note"
    urlAddresses := ["https://example.com"]
    socialProfiles := []
    instantMessageAddresses := [] }

/-- A backend on which `getContactDetails "alice-1"` succeeds through the
targeted name-search phase. -/
def bFound : Backend :=
  { loadError := none
    authStatus := "Authorized"
    requestAccessResult := ""
    getAllContactsBasic := [aliceBasic]
    getAllContactsFull := [aliceFull]
    getContactsByNameBasic := fun _ => [aliceBasic]
    getContactsByNameFull := fun _ => [aliceFull]
    updateResult := fun _ => true }

/-- A partial update: new last name, job title and phone list; everything
else omitted. -/
def fieldsPartial : UpdateFields :=
  { firstName := none
    lastName := some "Jones"
    nickname := none
    middleName := none
    jobTitle := some "Manager"
    departmentName := none
    organizationName := none
    birthday := none
    phoneNumbers := some ["+15105550000"]
    emailAddresses := none
    urlAddresses := none }

/-! ### Helper lemmas about the string primitives -/

theorem listStartsWith_append (n l l₂ : List Char) (h : listStartsWith n l = true) :
    listStartsWith n (l ++ l₂) = true := by
  induction n generalizing l with
  | nil => simp [listStartsWith]
  | cons a as ih =>
    cases l with
    | nil => simp [listStartsWith] at h
    | cons b bs =>
      simp [listStartsWith] at h ⊢
      exact ⟨h.1, ih bs h.2⟩

theorem listStartsWith_self (l l₂ : List Char) : listStartsWith l (l ++ l₂) = true := by
  induction l with
  | nil => simp [listStartsWith]
  | cons a as ih => simp [listStartsWith, ih]

theorem listContainsSub_nil_needle (l : List Char) : listContainsSub [] l = true := by
  cases l <;> simp [listContainsSub, listStartsWith]

theorem listContainsSub_append_left (n l₁ l₂ : List Char)
    (h : listContainsSub n l₁ = true) : listContainsSub n (l₁ ++ l₂) = true := by
  induction l₁ with
  | nil =>
    simp [listContainsSub] at h
    subst h
    exact listContainsSub_nil_needle l₂
  | cons h1 t ih =>
    simp [listContainsSub] at h ⊢
    rcases h with hs | hc
    · exact Or.inl (by simpa using listStartsWith_append n (h1 :: t) l₂ (by simpa using hs))
    · exact Or.inr (ih hc)

theorem listContainsSub_append_right (n l₁ l₂ : List Char)
    (h : listContainsSub n l₂ = true) : listContainsSub n (l₁ ++ l₂) = true := by
  induction l₁ with
  | nil => simpa using h
  | cons h1 t ih =>
    simp [listContainsSub]
    exact Or.inr (by simpa using ih)

theorem listContainsSub_self_append (n l : List Char) :
    listContainsSub n (n ++ l) = true := by
  cases n with
  | nil => exact listContainsSub_nil_needle l
  | cons a as =>
    simp [listContainsSub]
    exact Or.inl (by simpa using listStartsWith_self (a :: as) l)

theorem strIncludes_append_left (s t sub : String) (h : strIncludes s sub = true) :
    strIncludes (s ++ t) sub = true := by
  unfold strIncludes at h ⊢
  rw [show (s ++ t).toList = s.toList ++ t.toList by simp [String.toList]]
  exact listContainsSub_append_left _ _ _ h

theorem strIncludes_append_right (s t sub : String) (h : strIncludes t sub = true) :
    strIncludes (s ++ t) sub = true := by
  unfold strIncludes at h ⊢
  rw [show (s ++ t).toList = s.toList ++ t.toList by simp [String.toList]]
  exact listContainsSub_append_right _ _ _ h

theorem strIncludes_self (s : String) : strIncludes s s = true := by
  unfold strIncludes
  simpa using listContainsSub_self_append s.toList []

/-! ### Claim C5: the `ensureAccess` authorization state machine -/

/-- C5: when the authorization status is Authorized or Limited, `ensureAccess`
returns without prompting; on Not Determined it prompts exactly once and
succeeds iff the post-prompt status is Authorized or Limited, otherwise
failing with a message containing "not granted"; on any other status it fails
without prompting with a message containing the literal status. -/
theorem ensureAccess_state_machine (b : Backend) (h : b.loadError = none) :
    ((b.authStatus = "Authorized" ∨ b.authStatus = "Limited") →
      ensureAccess b = (.ok (), 0)) ∧
    (b.authStatus = "Not Determined" →
      (ensureAccess b).snd = 1 ∧
      ((b.requestAccessResult = "Authorized" ∨ b.requestAccessResult = "Limited") ↔
        (ensureAccess b).fst = .ok ()) ∧
      (¬(b.requestAccessResult = "Authorized" ∨ b.requestAccessResult = "Limited") →
        ∃ m, (ensureAccess b).fst = .error m ∧ strIncludes m "not granted" = true)) ∧
    (b.authStatus ≠ "Authorized" → b.authStatus ≠ "Limited" →
      b.authStatus ≠ "Not Determined" →
      ∃ m, ensureAccess b = (.error m, 0) ∧ strIncludes m b.authStatus = true) := by
  refine ⟨fun hs => ?_, fun hnd => ?_, fun h1 h2 h3 => ?_⟩
  · rcases hs with hs | hs <;> simp [ensureAccess, h, hs]
  · rcases Classical.em
      (b.requestAccessResult = "Authorized" ∨ b.requestAccessResult = "Limited") with hr | hr
    · rcases hr with hr | hr <;> simp [ensureAccess, h, hnd, hr]
    · have hr1 : b.requestAccessResult ≠ "Authorized" := fun hx => hr (Or.inl hx)
      have hr2 : b.requestAccessResult ≠ "Limited" := fun hx => hr (Or.inr hx)
      simp [ensureAccess, h, hnd, hr1, hr2]
      refine strIncludes_append_left _ _ _ (strIncludes_append_left _ _ _
        (strIncludes_append_left _ _ _ ?_))
      decide
  · simp [ensureAccess, h, h1, h2, h3]
    exact strIncludes_append_left _ _ _ (strIncludes_append_left _ _ _
      (strIncludes_append_left _ _ _
        (strIncludes_append_right _ _ _ (strIncludes_self _))))

/-- Witness for C5: a Denied backend fails without prompting and the error
message contains the literal status. -/
theorem ensureAccess_state_machine_witness :
    ∃ m, ensureAccess bDenied = (.error m, 0) ∧
      strIncludes m bDenied.authStatus = true :=
  (ensureAccess_state_machine bDenied rfl).2.2 (by decide) (by decide) (by decide)

/-! ### Claim C8: the `escapeAS` replacement chain -/

theorem replCharList_append (c : Char) (r x y : List Char) :
    replCharList c r (x ++ y) = replCharList c r x ++ replCharList c r y := by
  induction x with
  | nil => simp [replCharList]
  | cons h t ih => simp [replCharList, ih]

theorem escapeASList_append (x y : List Char) :
    escapeASList (x ++ y) = escapeASList x ++ escapeASList y := by
  simp [escapeASList, replCharList_append]

theorem escapeASList_singleton (c : Char) : escapeASList [c] = escChar c := by
  by_cases h1 : c = '\\'
  · subst h1; rfl
  by_cases h2 : c = '"'
  · subst h2; rfl
  by_cases h3 : c = '\r'
  · subst h3; rfl
  by_cases h4 : c = '\n'
  · subst h4; rfl
  simp [escapeASList, replCharList, escChar, h1, h2, h3, h4]

theorem escapeASList_eq_flatMap (l : List Char) :
    escapeASList l = l.flatMap escChar := by
  induction l with
  | nil => rfl
  | cons h t ih =>
    have : h :: t = [h] ++ t := rfl
    rw [this, escapeASList_append, escapeASList_singleton, ih]
    rfl

/-- C8: `escapeAS` is the chain of global replacements backslash → doubled
backslash, then quote → escaped quote, then CR and LF removal; it equals the
per-character expansion `escChar`, its output never contains CR or LF, and on
an input holding both a quote and a backslash both come out escaped. -/
theorem escapeAS_replacement_chain (s : String) :
    escapeAS s = ⟨s.toList.flatMap escChar⟩ ∧
    (∀ c ∈ (escapeAS s).toList, c ≠ '\r' ∧ c ≠ '\n') ∧
    escapeAS "a\"b\\c\r\n" = "a\\\"b\\\\c" := by
  refine ⟨by simp [escapeAS, escapeASList_eq_flatMap], ?_, by rfl⟩
  intro c hc
  have hl : (escapeAS s).toList = s.toList.flatMap escChar := by
    simp [escapeAS, escapeASList_eq_flatMap]
  rw [hl] at hc
  obtain ⟨a, _, hca⟩ := List.mem_flatMap.mp hc
  unfold escChar at hca
  split_ifs at hca with h1 h2 h3 h4 <;> simp at hca
  · subst hca; exact ⟨by decide, by decide⟩
  · rcases hca with hca | hca <;> subst hca <;> exact ⟨by decide, by decide⟩
  · subst hca; exact ⟨h3, h4⟩

/-- Witness for C8: the characterization applied at a concrete input holding
a quote, a backslash, a carriage return and a newline. -/
theorem escapeAS_replacement_chain_witness :
    escapeAS "a\"b\\c\r\n" = ⟨("a\"b\\c\r\n").toList.flatMap escChar⟩ ∧
    ('\\' ≠ '\r' ∧ '\\' ≠ '\n') :=
  ⟨(escapeAS_replacement_chain "a\"b\\c\r\n").1,
    (escapeAS_replacement_chain "a\"b\\c\r\n").2.1 '\\' (by decide)⟩

/-! ### Claims C3 and C4: `searchContacts` primary path and fallback scan -/

/-- C3: when the native name search returns at least one match,
`searchContacts` returns exactly those matches and never performs the
fallback scan (`getAllContacts` is absent from the trace); when it returns
zero matches and the trimmed lowercased query is empty, the result is the
empty list and no fallback scan runs. -/
theorem searchContacts_primary_no_fallback (b : Backend) (query : String)
    (hA : (ensureAccess b).fst = .ok ()) :
    (b.getContactsByNameBasic query ≠ [] →
      searchContacts b query =
        .ok (b.getContactsByNameBasic query, [.getContactsByNameBasic query])) ∧
    (b.getContactsByNameBasic query = [] → strTrim (strToLower query) = "" →
      searchContacts b query = .ok ([], [.getContactsByNameBasic query])) := by
  constructor
  · intro hne
    have hl : 0 < (b.getContactsByNameBasic query).length := List.length_pos.mpr hne
    simp [searchContacts, hA, hl]
  · intro h0 hq
    simp [searchContacts, hA, h0, hq]

/-- C4: when the fallback scan runs (native search empty, trimmed lowercased
query non-empty), a contact of the address book is kept exactly when its
lowercased full name, first name, last name or nickname contains the
lowercased trimmed query as a substring, or some lowercased email address
contains it, or some phone number contains it raw. -/
theorem searchContacts_fallback_filter (b : Backend) (query : String)
    (hA : (ensureAccess b).fst = .ok ())
    (h0 : b.getContactsByNameBasic query = [])
    (hq : strTrim (strToLower query) ≠ "")
    (c : ContactBasic) (hc : c ∈ b.getAllContactsBasic) :
    ∃ res tr, searchContacts b query = .ok (res, tr) ∧
      (c ∈ res ↔
        (strIncludes (strTrim (strToLower c.firstName ++ " " ++ strToLower c.lastName))
          (strTrim (strToLower query)) ||
        strIncludes (strToLower c.firstName) (strTrim (strToLower query)) ||
        strIncludes (strToLower c.lastName) (strTrim (strToLower query)) ||
        strIncludes (strToLower c.nickname) (strTrim (strToLower query)) ||
        c.emailAddresses.any
          (fun e => strIncludes (strToLower e) (strTrim (strToLower query))) ||
        c.phoneNumbers.any (fun p => strIncludes p (strTrim (strToLower query)))) = true) := by
  refine ⟨b.getAllContactsBasic.filter (fallbackMatch (strTrim (strToLower query))),
    [.getContactsByNameBasic query, .getAllContactsBasic], ?_, ?_⟩
  · simp [searchContacts, hA, h0, hq]
  · rw [List.mem_filter]
    simp [fallbackMatch, hc]

/-- Witness for C3: a non-empty native result is returned verbatim with no
fallback scan in the trace. -/
theorem searchContacts_primary_no_fallback_witness :
    searchContacts bPrimary "Alice" =
      .ok ([aliceBasic], [.getContactsByNameBasic "Alice"]) :=
  (searchContacts_primary_no_fallback bPrimary "Alice" rfl).1 (by decide)

/-- Witness for C4: the fallback scan keeps `aliceBasic` for the query "ali"
exactly when the stated substring predicate holds of it. -/
theorem searchContacts_fallback_filter_witness :
    ∃ res tr, searchContacts bFallback "ali" = .ok (res, tr) ∧
      (aliceBasic ∈ res ↔
        (strIncludes
          (strTrim (strToLower aliceBasic.firstName ++ " " ++ strToLower aliceBasic.lastName))
          (strTrim (strToLower "ali")) ||
        strIncludes (strToLower aliceBasic.firstName) (strTrim (strToLower "ali")) ||
        strIncludes (strToLower aliceBasic.lastName) (strTrim (strToLower "ali")) ||
        strIncludes (strToLower aliceBasic.nickname) (strTrim (strToLower "ali")) ||
        aliceBasic.emailAddresses.any
          (fun e => strIncludes (strToLower e) (strTrim (strToLower "ali"))) ||
        aliceBasic.phoneNumbers.any
          (fun p => strIncludes p (strTrim (strToLower "ali")))) = true) :=
  searchContacts_fallback_filter bFallback "ali" rfl rfl (by decide) aliceBasic
    (List.mem_singleton.mpr rfl)

/-! ### Claims C6 and C7: `getContactDetails` resolution -/

/-- C6: when no record of the targeted name-search phase and no record of the
full-scan fallback carries the identifier, `getContactDetails` returns `none`
as a normal result. -/
theorem getContactDetails_not_found_null (b : Backend) (identifier : String)
    (hA : (ensureAccess b).fst = .ok ())
    (hname : ∀ s, ∀ c ∈ b.getContactsByNameFull s, c.identifier ≠ identifier)
    (hall : ∀ c ∈ b.getAllContactsFull, c.identifier ≠ identifier) :
    ∃ tr, getContactDetails b identifier = .ok (none, tr) := by
  have hfall : b.getAllContactsFull.find? (fun c => c.identifier == identifier) = none :=
    List.find?_eq_none.mpr (fun x hx => by simpa using hall x hx)
  cases hfind : b.getAllContactsBasic.find? (fun c => c.identifier == identifier) with
  | none =>
    exact ⟨[.getAllContactsBasic, .getAllContactsFull],
      by simp [getContactDetails, hA, hfind, hfall]⟩
  | some bm =>
    by_cases hsn : (if bm.firstName = "" then bm.lastName else bm.firstName) = ""
    · exact ⟨[.getAllContactsBasic, .getAllContactsFull],
        by simp [getContactDetails, hA, hfind, hsn, hfall]⟩
    · have hdet : (b.getContactsByNameFull
          (if bm.firstName = "" then bm.lastName else bm.firstName)).find?
            (fun c => c.identifier == identifier) = none :=
        List.find?_eq_none.mpr (fun x hx => by simpa using hname _ x hx)
      exact ⟨[.getAllContactsBasic,
          .getContactsByNameFull (if bm.firstName = "" then bm.lastName else bm.firstName),
          .getAllContactsFull],
        by simp [getContactDetails, hA, hfind, hsn, hdet, hfall]⟩

/-- Witness for C6: an unknown identifier resolves to `none`. -/
theorem getContactDetails_not_found_null_witness :
    ∃ tr, getContactDetails bEmptyAuth "ghost" = .ok (none, tr) :=
  getContactDetails_not_found_null bEmptyAuth "ghost" rfl
    (fun _ c hc => absurd hc (List.not_mem_nil c))
    (fun c hc => absurd hc (List.not_mem_nil c))

/-- C7: when the basic record found for the identifier has both name fields
empty, the targeted name-search phase is skipped (the trace holds no
name-search call) and the result is the full-scan fallback lookup. -/
theorem getContactDetails_empty_name_skips_search (b : Backend) (identifier : String)
    (hA : (ensureAccess b).fst = .ok ())
    (bm : ContactBasic)
    (hfind : b.getAllContactsBasic.find? (fun c => c.identifier == identifier) = some bm)
    (hf : bm.firstName = "") (hl : bm.lastName = "") :
    getContactDetails b identifier =
      .ok (b.getAllContactsFull.find? (fun c => c.identifier == identifier),
        [.getAllContactsBasic, .getAllContactsFull]) ∧
    ∀ s, BackendCall.getContactsByNameFull s ∉
      ([.getAllContactsBasic, .getAllContactsFull] : List BackendCall) := by
  constructor
  · simp [getContactDetails, hA, hfind, hf, hl]
  · intro s
    simp

/-- Witness for C7: the nameless contact is resolved through the full-scan
fallback only. -/
theorem getContactDetails_empty_name_skips_search_witness :
    getContactDetails bNoName "n1" =
      .ok (bNoName.getAllContactsFull.find? (fun c => c.identifier == "n1"),
        [.getAllContactsBasic, .getAllContactsFull]) ∧
    ∀ s, BackendCall.getContactsByNameFull s ∉
      ([.getAllContactsBasic, .getAllContactsFull] : List BackendCall) :=
  getContactDetails_empty_name_skips_search bNoName "n1" rfl noNameBasic rfl rfl rfl
/-! ### Claims C1 and C2: the `update_contact` handler -/

/-- C1 (code bug): the handler never awaits `native.getContactDetails`, so
the stored contact is never read.  At a backend holding contact "alice-1"
with stored first name "Alice", an update omitting `firstName` sends a
payload whose `firstName` is `undefined` (`none`), not the stored value:
the merge described by the claim, the handler's own comment and the tool
description does not occur. -/
theorem update_contact_unawaited_no_merge :
    BackendCall.updateContact
      { identifier := "alice-1"
        firstName := none
        lastName := some "Jones"
        nickname := none
        middleName := none
        jobTitle := some "Manager"
        departmentName := none
        organizationName := none
        birthday := none
        phoneNumbers := some ["+15105550000"]
        emailAddresses := none
        urlAddresses := none } ∈
      (update_contact bFound "alice-1" fieldsPartial).snd ∧
    aliceFull.firstName = "Alice" ∧
    (none : Option String) ≠ some aliceFull.firstName := by
  refine ⟨by decide, rfl, by decide⟩

/-- C2 (code bug): `if (!current)` tests an unawaited promise, which is
always truthy, so the not-found branch of the handler is dead.  At an empty
backend, where `getContactDetails` resolves to `none`, the handler still
returns the success payload and still issues a backend update call. -/
theorem update_contact_unawaited_not_found_dead :
    getContactDetails bEmptyAuth "ghost" =
      .ok (none, [.getAllContactsBasic, .getAllContactsFull]) ∧
    (update_contact bEmptyAuth "ghost" fieldsPartial).fst ≠
      .notFoundPayload "ghost" ∧
    (update_contact bEmptyAuth "ghost" fieldsPartial).fst = .resultPayload true ∧
    BackendCall.updateContact
      { identifier := "ghost"
        firstName := none
        lastName := some "Jones"
        nickname := none
        middleName := none
        jobTitle := some "Manager"
        departmentName := none
        organizationName := none
        birthday := none
        phoneNumbers := some ["+15105550000"]
        emailAddresses := none
        urlAddresses := none } ∈
      (update_contact bEmptyAuth "ghost" fieldsPartial).snd := by
  refine ⟨rfl, by decide, rfl, by decide⟩

/-! ### Claims C9 and C10: group-member parsing and the `", "` split -/

theorem strStartsWith_of_append (lit rest p : String)
    (h : strStartsWith lit p = true) : strStartsWith (lit ++ rest) p = true := by
  unfold strStartsWith at h ⊢
  rw [show (lit ++ rest).toList = lit.toList ++ rest.toList by simp [String.toList]]
  exact listStartsWith_append _ _ _ h

theorem consHead_ne_nil (a : Char) (l : List (List Char)) : consHead a l ≠ [] := by
  cases l <;> simp [consHead]

theorem splitCS_ne_nil (l : List Char) : splitCS l ≠ [] := by
  match l with
  | [] => simp [splitCS]
  | [h] => simp [splitCS]
  | a :: b :: t =>
    by_cases hab : a = ',' ∧ b = ' '
    · simp [splitCS, hab]
    · simp only [splitCS, if_neg hab]
      exact consHead_ne_nil _ _

theorem splitCS_head_char (l s : List Char) (rest : List (List Char))
    (h : splitCS l = s :: rest) (c : Char) (hc : s.head? = some c) :
    l.head? = some c := by
  match l with
  | [] =>
    simp [splitCS] at h
    obtain ⟨he, -⟩ := h
    subst he
    simp at hc
  | [h1] =>
    simp [splitCS] at h
    obtain ⟨he, -⟩ := h
    subst he
    simp at hc
    simp [hc]
  | a :: b :: t =>
    by_cases hab : a = ',' ∧ b = ' '
    · simp [splitCS, hab] at h
      obtain ⟨he, -⟩ := h
      subst he
      simp at hc
    · simp only [splitCS, if_neg hab] at h
      cases hsp : splitCS (b :: t) with
      | nil => exact absurd hsp (splitCS_ne_nil _)
      | cons s₂ rest₂ =>
        rw [hsp] at h
        simp [consHead] at h
        obtain ⟨he, -⟩ := h
        subst he
        simp at hc
        simp [hc]

theorem splitCS_no_sep (l : List Char) :
    ∀ r ∈ splitCS l, listContainsSub [',', ' '] r = false := by
  match l with
  | [] =>
    intro r hr
    simp [splitCS] at hr
    subst hr
    decide
  | [h1] =>
    intro r hr
    simp [splitCS] at hr
    subst hr
    simp [listContainsSub, listStartsWith]
  | a :: b :: t =>
    intro r hr
    by_cases hab : a = ',' ∧ b = ' '
    · simp [splitCS, hab] at hr
      rcases hr with rfl | hr
      · decide
      · exact splitCS_no_sep t r hr
    · simp only [splitCS, if_neg hab] at hr
      cases hsp : splitCS (b :: t) with
      | nil => exact absurd hsp (splitCS_ne_nil _)
      | cons s₂ rest₂ =>
        rw [hsp] at hr
        simp [consHead] at hr
        rcases hr with rfl | hr
        · have hs₂ : listContainsSub [',', ' '] s₂ = false :=
            splitCS_no_sep (b :: t) s₂ (by rw [hsp]; exact List.mem_cons_self _ _)
          simp [listContainsSub, hs₂, listStartsWith]
          intro ha
          subst ha
          have hb : b ≠ ' ' := fun hb => hab ⟨rfl, hb⟩
          cases hs : s₂ with
          | nil => simp [listStartsWith]
          | cons c cs =>
            have hhead : (b :: t).head? = some c :=
              splitCS_head_char (b :: t) s₂ rest₂ hsp c (by rw [hs]; rfl)
            have hcb : b = c := by simpa using hhead
            subst hcb
            simp [listStartsWith]
            exact fun hsp₂ => hb hsp₂.symm
        · exact splitCS_no_sep (b :: t) r (by rw [hsp]; exact List.mem_cons_of_mem _ hr)

/-- C9: `getGroupMembers` maps the sentinel output to the not-found error
naming the group, any script failure to an error prefixed with
"AppleScript error:", empty output to the empty list and any other output to
its `", "` split. -/
theorem getGroupMembers_outcomes (g : String) :
    (∀ out, strTrim out = "GROUP_NOT_FOUND" →
      getGroupMembers (.success out) g =
        .error ("Group \"" ++ g ++ "\" not found") ∧
      strIncludes ("Group \"" ++ g ++ "\" not found") g = true) ∧
    (∀ o : ExecOutcome, (∀ out, o ≠ .success out) →
      ∃ m, getGroupMembers o g = .error m ∧
        strStartsWith m "AppleScript error:" = true) ∧
    (∀ out, strTrim out = "" → getGroupMembers (.success out) g = .ok []) ∧
    (∀ out, strTrim out ≠ "GROUP_NOT_FOUND" → strTrim out ≠ "" →
      getGroupMembers (.success out) g = .ok (jsSplitCommaSpace (strTrim out))) := by
  refine ⟨fun out h => ⟨by simp [getGroupMembers, runAppleScript, h], ?_⟩,
    fun o ho => ?_, fun out h => by simp [getGroupMembers, runAppleScript, h],
    fun out h1 h2 => by simp [getGroupMembers, runAppleScript, h1, h2]⟩
  · exact strIncludes_append_left _ _ _
      (strIncludes_append_right _ _ _ (strIncludes_self g))
  · cases o with
    | success out => exact absurd rfl (ho out)
    | errorThrown stderr message =>
      refine ⟨_, rfl, ?_⟩
      exact strStartsWith_of_append _ _ _ (by decide)
    | nonErrorThrown s =>
      refine ⟨_, rfl, ?_⟩
      exact strStartsWith_of_append _ _ _ (by decide)

/-- Witness for C9: each arm of the parsing contract at a concrete input. -/
theorem getGroupMembers_outcomes_witness :
    (getGroupMembers (.success "GROUP_NOT_FOUND") "Ghost" =
      .error ("Group \"" ++ "Ghost" ++ "\" not found")) ∧
    (∃ m, getGroupMembers (.errorThrown (some "boom") "cmd failed") "Work" =
      .error m ∧ strStartsWith m "AppleScript error:" = true) ∧
    getGroupMembers (.success "\n") "Empty" = .ok [] ∧
    getGroupMembers (.success "Alice Smith, Bob Jones\n") "Work" =
      .ok (jsSplitCommaSpace (strTrim "Alice Smith, Bob Jones\n")) :=
  ⟨((getGroupMembers_outcomes "Ghost").1 "GROUP_NOT_FOUND" (by decide)).1,
    (getGroupMembers_outcomes "Work").2.1 (.errorThrown (some "boom") "cmd failed")
      (fun out h => ExecOutcome.noConfusion h),
    (getGroupMembers_outcomes "Empty").2.2.1 "\n" (by decide),
    (getGroupMembers_outcomes "Work").2.2.2 "Alice Smith, Bob Jones\n"
      (by decide) (by decide)⟩

/-- C10: on non-empty (non-sentinel) trimmed output, `listGroups` and
`getGroupMembers` return exactly the `", "`-separated segments of the trimmed
output; no returned element contains `", "`, so a stored name holding `", "`
comes back as several entries. -/
theorem split_segments_no_separator (out g : String)
    (h1 : strTrim out ≠ "") (h2 : strTrim out ≠ "GROUP_NOT_FOUND") :
    listGroups (.success out) = .ok (jsSplitCommaSpace (strTrim out)) ∧
    getGroupMembers (.success out) g = .ok (jsSplitCommaSpace (strTrim out)) ∧
    (∀ e ∈ jsSplitCommaSpace (strTrim out), strIncludes e ", " = false) ∧
    jsSplitCommaSpace "Smith, Jones" = ["Smith", "Jones"] := by
  refine ⟨by simp [listGroups, runAppleScript, h1],
    by simp [getGroupMembers, runAppleScript, h1, h2], ?_, by rfl⟩
  intro e he
  obtain ⟨le, hle, rfl⟩ := List.mem_map.mp he
  have hns := splitCS_no_sep (strTrim out).toList le hle
  simpa [strIncludes] using hns

/-- Witness for C10: a two-name output splits into two `", "`-free entries. -/
theorem split_segments_no_separator_witness :
    listGroups (.success "Smith, Jones") =
      .ok (jsSplitCommaSpace (strTrim "Smith, Jones")) ∧
    ∀ e ∈ jsSplitCommaSpace (strTrim "Smith, Jones"), strIncludes e ", " = false :=
  ⟨(split_segments_no_separator "Smith, Jones" "G" (by decide) (by decide)).1,
    (split_segments_no_separator "Smith, Jones" "G" (by decide) (by decide)).2.2.1⟩

end ConnectorContacts
